import Mathlib

/-!
# Verification of the Wish giveaway bot core

Shallow embedding of the data model and operations of `wish_bot.py`
(and the identical eligibility evaluator of `creator_giveaway_bot.py`).

Modelling conventions:
* SQLite tables become explicit Lean state: the `giveaways` status column is
  `DB.status : Nat → Option String` (`none` = no row with that id), the
  `giveaway_winners` log is `DB.winners : Nat → List Nat` (ordered list of
  discord ids), the `Participants` table is
  `DB.participants : Nat → Option (Option Int)` (outer `Option` = row exists,
  inner `Option` = nullable `last_win_at`; timestamps are integers), and
  `giveaway_entries` is a list of `EntryRow` keyed by `(giveaway_id, discord_id)`.
* `random.shuffle` is an oracle `sh : List Nat → List Nat`; theorems assume it
  yields a permutation (or merely preserves membership) of its input.
* The network resolver (`_fetch_html` plus the manufacturer regex) is an oracle
  `resolve : String → Option String` from product id to creator id.
* Python regex `\d{5,}` over a string is modelled as the maximal runs of ASCII
  digit characters of length ≥ 5, in order of occurrence.
-/

/-- Maximal runs of digit characters of a character list, in order.
`acc` holds the current run, reversed. -/
def digitRunsAux : List Char → List Char → List (List Char)
  | [], acc => if acc.isEmpty then [] else [acc.reverse]
  | c :: cs, acc =>
    if c.isDigit then digitRunsAux cs (c :: acc)
    else if acc.isEmpty then digitRunsAux cs []
    else acc.reverse :: digitRunsAux cs []

/-- Maximal digit runs of a string, as strings. -/
def digitRuns (s : String) : List String :=
  (digitRunsAux s.data []).map (fun cs => String.mk cs)

/-- Matches of the Python regex `(\d{5,})` (`PROD_ID_RX` / `SHOPS_IN_DESC_RX`):
maximal digit runs of length at least 5. -/
def find_digit_ids (s : String) : List String :=
  (digitRuns s).filter (fun r => 5 ≤ r.length)

/-- Order-preserving de-duplication keeping first occurrences
(Python `list(dict.fromkeys(...))` / the `seen` loops of the source). -/
def pyDedup {α : Type} [DecidableEq α] : List α → List α
  | [] => []
  | x :: xs => x :: (pyDedup xs).filter (fun y => y ≠ x)

/-- `parse_product_ids` of `wish_bot.py`: digit runs of length ≥ 5,
de-duplicated keeping order, truncated at `limit`. -/
def parse_product_ids (raw : String) (limit : Nat) : List String :=
  (pyDedup (find_digit_ids raw)).take limit

theorem pyDedup_nodup {α : Type} [DecidableEq α] (l : List α) : (pyDedup l).Nodup := by
  induction l with
  | nil => simp [pyDedup]
  | cons x xs ih =>
    simp only [pyDedup, List.nodup_cons]
    constructor
    · intro hx
      rcases List.mem_filter.mp hx with ⟨_, hne⟩
      simp at hne
    · exact List.Nodup.filter _ ih

theorem pyDedup_subset {α : Type} [DecidableEq α] (l : List α) :
    ∀ x, x ∈ pyDedup l → x ∈ l := by
  induction l with
  | nil => intro x hx; simp [pyDedup] at hx
  | cons a as ih =>
    intro x hx
    simp only [pyDedup, List.mem_cons] at hx
    rcases hx with h | h
    · simp [h]
    · exact List.mem_cons_of_mem _ (ih x (List.mem_filter.mp h).1)

/-- A row of the `giveaway_entries` table
(primary key `(giveaway_id, discord_id)`). -/
structure EntryRow where
  gid : Nat
  did : Nat
  uname : String
  pids : String
  createdAt : Int
deriving DecidableEq

/-- The mutable state of the bot's SQLite database, restricted to the tables
the verified operations touch. -/
structure DB where
  /-- `giveaways.status` by giveaway id; `none` = no such giveaway row. -/
  status : Nat → Option String
  /-- `giveaway_winners`: per-giveaway append-only list of discord ids. -/
  winners : Nat → List Nat
  /-- `Participants.last_win_at` by discord id: `none` = no row,
  `some none` = row with NULL `last_win_at`, `some (some t)` = last win at `t`. -/
  participants : Nat → Option (Option Int)
  /-- `giveaway_entries` rows. -/
  entries : List EntryRow

/-- `giveaway_claim`:
`UPDATE giveaways SET status='DRAWING' WHERE id=? AND status='OPEN'`,
returning whether a row was updated (`cur.rowcount > 0`). -/
def giveaway_claim (gid : Nat) (s : DB) : Bool × DB :=
  if s.status gid = some "OPEN" then
    (true, { s with status := fun g => if g = gid then some "DRAWING" else s.status g })
  else
    (false, s)

/-- `giveaway_mark_done`: `UPDATE giveaways SET status='DONE' WHERE id=?`. -/
def giveaway_mark_done (gid : Nat) (s : DB) : DB :=
  if (s.status gid).isSome then
    { s with status := fun g => if g = gid then some "DONE" else s.status g }
  else s

/-- The watcher's revert:
`UPDATE giveaways SET status='OPEN' WHERE id=? AND status='DRAWING'`. -/
def revert_claim (gid : Nat) (s : DB) : DB :=
  if s.status gid = some "DRAWING" then
    { s with status := fun g => if g = gid then some "OPEN" else s.status g }
  else s

/-- `set_winner`: `UPDATE Participants SET last_win_at=now WHERE discord_id=?`
(no-op when the participant row does not exist). -/
def set_winner (uid : Nat) (now : Int) (s : DB) : DB :=
  { s with participants := fun u =>
      if u = uid then (s.participants u).map (fun _ => some now) else s.participants u }

/-- `add_giveaway_winner`: `INSERT OR IGNORE INTO giveaway_winners ...`
(primary key `(giveaway_id, discord_id)`). -/
def add_giveaway_winner (gid uid : Nat) (s : DB) : DB :=
  if (s.winners gid).contains uid then s
  else { s with winners := fun g => if g = gid then s.winners g ++ [uid] else s.winners g }

/-- The recording loop shared by the watcher and `reroll_cmd`:
`for uid in picks: set_winner(uid); add_giveaway_winner(gid, uid)`. -/
def recordWinners (gid : Nat) (picks : List Nat) (now : Int) (s : DB) : DB :=
  picks.foldl (fun st u => add_giveaway_winner gid u (set_winner u now st)) s

/-- `giveaway_entry_user_ids`:
`SELECT DISTINCT discord_id FROM giveaway_entries WHERE giveaway_id=?`. -/
def giveaway_entry_user_ids (gid : Nat) (s : DB) : List Nat :=
  pyDedup ((s.entries.filter (fun r => r.gid = gid)).map (fun r => r.did))

/-- `giveaway_count_entries`:
`SELECT COUNT(*) FROM giveaway_entries WHERE giveaway_id=?`. -/
def giveaway_count_entries (gid : Nat) (entries : List EntryRow) : Nat :=
  (entries.filter (fun r => r.gid = gid)).length

/-- `list_giveaway_winners`:
`SELECT discord_id FROM giveaway_winners WHERE giveaway_id=?`. -/
def list_giveaway_winners (gid : Nat) (s : DB) : List Nat :=
  s.winners gid

/-- The reroll win-history filter with `ONE_WIN_ONLY` semantics: a participant
is locked out iff their `Participants` row exists and `last_win_at` is non-null
(Python `row and row[0]`). -/
def lockedOut (s : DB) (u : Nat) : Bool :=
  match s.participants u with
  | some (some _) => true
  | _ => false

/-- `reroll_cmd` pool before the win-history filter: distinct entrants of the
giveaway minus participants already in its winner log. -/
def reroll_pool (gid : Nat) (s : DB) : List Nat :=
  (giveaway_entry_user_ids gid s).filter (fun u => ¬ (s.winners gid).contains u)

/-- `reroll_cmd` pool after the `ONE_WIN_ONLY` lifetime filter. -/
def reroll_pool2 (gid : Nat) (oneWinOnly : Bool) (s : DB) : List Nat :=
  if oneWinOnly then (reroll_pool gid s).filter (fun u => ¬ lockedOut s u)
  else reroll_pool gid s

/-- `reroll_cmd` of `wish_bot.py`. Arguments beyond the slash-command inputs:
`oneWinOnly` is the `ONE_WIN_ONLY` env flag, `sh` the shuffle oracle,
`channelVisible` whether `bot.get_channel` succeeded, `now` the timestamp used
by `set_winner`. Returns the picked winners and the updated database; the
announcement send is fire-and-forget in the source (its failure is swallowed),
so it does not affect state. -/
def reroll_go (gid : Nat) (count : Int) (oneWinOnly : Bool) (sh : List Nat → List Nat)
    (now : Int) (s : DB) : List Nat × DB :=
  let pool := reroll_pool gid s
  if pool.isEmpty then ([], s)
  else
    let pool2 := reroll_pool2 gid oneWinOnly s
    if oneWinOnly ∧ pool2.isEmpty then ([], s)
    else
      let picks := (sh pool2).take (max 1 count).toNat
      (picks, recordWinners gid picks now s)

/-- `reroll_cmd`, entry point: bail out when the giveaway row does not exist
(`if not row`) or the channel is not visible, otherwise run the draw.
Note the source performs no check of the giveaway status here. -/
def reroll (gid : Nat) (count : Int) (oneWinOnly : Bool) (sh : List Nat → List Nat)
    (channelVisible : Bool) (now : Int) (s : DB) : List Nat × DB :=
  if (s.status gid).isNone then ([], s)
  else if ¬ channelVisible then ([], s)
  else reroll_go gid count oneWinOnly sh now s

/-- Configuration flags read by `giveaway_watcher`. -/
structure DrawCfg where
  oneWinOnly : Bool
  cooldownDays : Int
  strictShopMatch : Bool
  now : Int

/-- The win-history filter of both watcher passes: skip when `ONE_WIN_ONLY`
and the row has a non-null `last_win_at`; otherwise skip when the cooldown
window is active and the last win is more recent than `now - cooldown`. -/
def winFilterOk (cfg : DrawCfg) (s : DB) (u : Nat) : Bool :=
  match s.participants u with
  | some (some lw) =>
    if cfg.oneWinOnly then false
    else if 0 < cfg.cooldownDays then
      decide (¬ (cfg.now - cfg.cooldownDays * 86400 < lw))
    else true
  | _ => true

/-- `giveaway_entry_raw_products`: product ids parsed from the stored
`wishlist_product_id` text of the participant's entry (limit 10). -/
def giveaway_entry_raw_products (gid uid : Nat) (s : DB) : List String :=
  match s.entries.find? (fun r => r.gid = gid ∧ r.did = uid) with
  | none => []
  | some r => if r.pids = "" then [] else parse_product_ids r.pids 10

/-- `find_pid_for_shop`: first product id in the list whose resolved creator id
equals the shop id (`if cid and str(cid) == str(shop_cid)`). -/
def find_pid_for_shop (resolve : String → Option String) :
    List String → String → Option String
  | [], _ => none
  | p :: rest, shop =>
    match resolve p with
    | some cid => if cid = shop then some p else find_pid_for_shop resolve rest shop
    | none => find_pid_for_shop resolve rest shop

/-- Candidate pool built per shop inside the watcher: pool members not yet
picked and passing the win-history filter. -/
def shopCandidates (cfg : DrawCfg) (s : DB) (pool picked : List Nat) : List Nat :=
  pool.filter (fun u => ¬ picked.contains u ∧ winFilterOk cfg s u)

/-- Scan of the shuffled candidates for one whose submitted products contain a
match for the shop. -/
def scanCandidates (gid : Nat) (s : DB) (resolve : String → Option String)
    (shop : String) : List Nat → Option (Nat × String)
  | [] => none
  | u :: rest =>
    let pids := giveaway_entry_raw_products gid u s
    if pids.isEmpty then scanCandidates gid s resolve shop rest
    else
      match find_pid_for_shop resolve pids shop with
      | some pid => some (u, pid)
      | none => scanCandidates gid s resolve shop rest

/-- The per-shop allocation loop of `giveaway_watcher` (`for shop_cid in shops`),
breaking once `winners_n` picks are reached. -/
def drawShopsLoop (cfg : DrawCfg) (s : DB) (gid : Nat)
    (resolve : String → Option String) (sh : List Nat → List Nat)
    (pool : List Nat) (winnersN : Nat) :
    List String → List (Nat × Option String) → List Nat → List (Nat × Option String)
  | [], picks, _ => picks
  | shop :: rest, picks, picked =>
    let cands := sh (shopCandidates cfg s pool picked)
    match scanCandidates gid s resolve shop cands with
    | none => drawShopsLoop cfg s gid resolve sh pool winnersN rest picks picked
    | some (u, pid) =>
      let picksNew := picks ++ [(u, some pid)]
      if winnersN ≤ picksNew.length then picksNew
      else drawShopsLoop cfg s gid resolve sh pool winnersN rest picksNew (picked ++ [u])

/-- The fallback fill loop of `giveaway_watcher`. -/
def fallbackLoop (cfg : DrawCfg) (s : DB) (gid : Nat) (winnersN : Nat) :
    List Nat → List (Nat × Option String) → List (Nat × Option String)
  | [], picks => picks
  | u :: rest, picks =>
    if winFilterOk cfg s u then
      let picksNew := picks ++ [(u, (giveaway_entry_raw_products gid u s).head?)]
      if winnersN ≤ picksNew.length then picksNew
      else fallbackLoop cfg s gid winnersN rest picksNew
    else fallbackLoop cfg s gid winnersN rest picks

/-- The winner-selection section of `giveaway_watcher` for one due giveaway:
per-shop allocation when shops were supplied, then the fallback fill unless
strict mode suppresses it. -/
def watcher_draw (cfg : DrawCfg) (s : DB) (gid : Nat) (winners : Int)
    (shops : List String) (resolve : String → Option String)
    (sh : List Nat → List Nat) : List (Nat × Option String) :=
  let winnersN := (max 1 winners).toNat
  let pool := sh (giveaway_entry_user_ids gid s)
  let picks :=
    if shops.isEmpty then []
    else drawShopsLoop cfg s gid resolve sh pool winnersN shops [] []
  if picks.length < winnersN ∧ ¬ pool.isEmpty then
    if ¬ shops.isEmpty ∧ cfg.strictShopMatch then picks
    else
      let remaining := sh (pool.filter (fun u => ¬ (picks.map Prod.fst).contains u))
      fallbackLoop cfg s gid winnersN remaining picks
  else picks

/-- The post-draw section of `giveaway_watcher`: when the announcement was
posted, record each pick in `Participants.last_win_at` and the per-giveaway
winner log and mark the giveaway DONE; when it failed, revert
`DRAWING → OPEN` and write nothing else. -/
def finalize_after_draw (posted : Bool) (gid : Nat) (picks : List (Nat × Option String))
    (now : Int) (s : DB) : DB :=
  if posted then giveaway_mark_done gid (recordWinners gid (picks.map Prod.fst) now s)
  else revert_claim gid s

/-- A row of the `cache_products` table. -/
structure CacheRow where
  creatorId : String
  fetchedAt : Int
deriving DecidableEq

/-- The token→sponsor cache (`cache_products` keyed by product id). -/
def ProductCache : Type := String → Option CacheRow

/-- `cache_get`: a row older than `PRODUCT_CACHE_TTL_HOURS` is treated as
absent; a miss is `none` (the spec's UNKNOWN). -/
def cache_get (cache : ProductCache) (now ttlHours : Int) (pid : String) :
    Option String :=
  match cache pid with
  | none => none
  | some row => if ttlHours * 3600 < now - row.fetchedAt then none else some row.creatorId

/-- `cache_put`: skips caching failures/empties (`if not creator_id: return`),
otherwise upserts the row with the current timestamp. -/
def cache_put (cache : ProductCache) (pid : String) (creatorId : Option String)
    (now : Int) : ProductCache :=
  match creatorId with
  | none => cache
  | some cid =>
    if cid = "" then cache
    else fun p => if p = pid then some ⟨cid, now⟩ else cache p

/-- `product_creator_id`: consult the cache (an empty-string hit is treated as
a miss and retried); on a miss attempt resolution, caching only success.
Returns `(result, attemptedResolution, cache)`; the two candidate URLs plus
the manufacturer regex are abstracted into the `resolve` oracle. -/
def product_creator_id (cache : ProductCache) (now ttlHours : Int)
    (resolve : String → Option String) (pid : String) :
    Option String × Bool × ProductCache :=
  match cache_get cache now ttlHours pid with
  | some c =>
    if c ≠ "" then (some c, false, cache)
    else
      match resolve pid with
      | some cid => (some cid, true, cache_put cache pid (some cid) now)
      | none => (none, true, cache)
  | none =>
    match resolve pid with
    | some cid => (some cid, true, cache_put cache pid (some cid) now)
    | none => (none, true, cache)

/-- The `rules` table contents as read by `_eligible_by_creator_rule`:
`threshold` is the integer value of the `threshold` key, `mapJson` the result
of `json.loads` on the `map_json` key (`none` models a parse exception). -/
structure Rules where
  mode : String
  threshold : Int
  mapJson : Option (List (String × Int))

/-- Python `str.upper()` restricted to ASCII, character by character
(rule modes are plain ASCII words). -/
def upperString (s : String) : String :=
  String.mk (s.data.map Char.toUpper)

/-- `per_creator.get(cid, 0)` over the per-sponsor count dict
(modelled as an association list). -/
def lookupCount (per : List (String × Int)) (cid : String) : Int :=
  match per.find? (fun kv => kv.1 = cid) with
  | some kv => kv.2
  | none => 0

/-- `_eligible_by_creator_rule`, identical in `wish_bot.py` and
`creator_giveaway_bot.py`: NONE/empty allow-list is always eligible; ANY/EACH
compare each allowed sponsor count with the clamped threshold; MAP checks each
map entry, failing open on an unparsable or empty map. -/
def eligible_by_creator_rule (per : List (String × Int)) (rules : Rules)
    (allowed : List String) : Bool :=
  let mode := upperString rules.mode
  if mode = "NONE" ∨ allowed.isEmpty then true
  else if mode = "ANY" ∨ mode = "EACH" then
    let thr := max 1 rules.threshold
    if mode = "ANY" then allowed.any (fun cid => thr ≤ lookupCount per cid)
    else allowed.all (fun cid => thr ≤ lookupCount per cid)
  else if mode = "MAP" then
    let req := match rules.mapJson with
      | some m => m
      | none => []
    if req.isEmpty then true
    else req.all (fun kv => kv.2 ≤ lookupCount per kv.1)
  else true

/-- `giveaway_add_entry`: plain INSERT of a new entry row. -/
def giveaway_add_entry (gid did : Nat) (uname pids : String) (now : Int)
    (tbl : List EntryRow) : List EntryRow :=
  tbl ++ [⟨gid, did, uname, pids, now⟩]

/-- `EnterModal.on_submit` on the entries table. `uname` is the normalized
username (`normalize_username` output), `rawPids` the raw product-ids text.
Rejects empty username or no parsed ids; otherwise updates the existing
`(giveaway, participant)` row in place or inserts a fresh one. Returns
`(accepted, table)`. -/
def enter_submit (gid did : Nat) (uname rawPids : String) (now : Int)
    (tbl : List EntryRow) : Bool × List EntryRow :=
  let ids := parse_product_ids rawPids 10
  if uname = "" ∨ ids.isEmpty then (false, tbl)
  else
    let csv := String.intercalate "," ids
    if tbl.any (fun r => r.gid = gid ∧ r.did = did) then
      (true, tbl.map (fun r =>
        if r.gid = gid ∧ r.did = did then
          { r with uname := uname, pids := csv, createdAt := now }
        else r))
    else
      (true, giveaway_add_entry gid did uname csv now tbl)

/-- The unique shop ids parsed by `WishSingle.on_submit` from the Shops field:
`re.findall(r'(\d{5,})', shops)` de-duplicated keeping order. -/
def wish_unique_shops (shopsText : String) : List String :=
  pyDedup (find_digit_ids shopsText)

/-- The stored target winner count computed by `WishSingle.on_submit`:
`winners_n = len(unique_ids) if unique_ids else max(1, int(winners_typed))`. -/
def wish_winners_n (shopsText : String) (winnersTyped : Int) : Int :=
  let u := wish_unique_shops shopsText
  if u.isEmpty then max 1 winnersTyped else (u.length : Int)

theorem set_winner_winners (uid : Nat) (now : Int) (s : DB) :
    (set_winner uid now s).winners = s.winners := rfl

theorem set_winner_status (uid : Nat) (now : Int) (s : DB) :
    (set_winner uid now s).status = s.status := rfl

theorem set_winner_entries (uid : Nat) (now : Int) (s : DB) :
    (set_winner uid now s).entries = s.entries := rfl

theorem add_giveaway_winner_status (gid uid : Nat) (s : DB) :
    (add_giveaway_winner gid uid s).status = s.status := by
  unfold add_giveaway_winner; split <;> rfl

theorem add_giveaway_winner_participants (gid uid : Nat) (s : DB) :
    (add_giveaway_winner gid uid s).participants = s.participants := by
  unfold add_giveaway_winner; split <;> rfl

theorem add_giveaway_winner_entries (gid uid : Nat) (s : DB) :
    (add_giveaway_winner gid uid s).entries = s.entries := by
  unfold add_giveaway_winner; split <;> rfl

theorem recordWinners_status (gid : Nat) (now : Int) :
    ∀ (picks : List Nat) (s : DB), (recordWinners gid picks now s).status = s.status := by
  intro picks
  induction picks with
  | nil => intro s; rfl
  | cons u rest ih =>
    intro s
    show (recordWinners gid rest now (add_giveaway_winner gid u (set_winner u now s))).status
      = s.status
    rw [ih, add_giveaway_winner_status, set_winner_status]

theorem recordWinners_entries (gid : Nat) (now : Int) :
    ∀ (picks : List Nat) (s : DB), (recordWinners gid picks now s).entries = s.entries := by
  intro picks
  induction picks with
  | nil => intro s; rfl
  | cons u rest ih =>
    intro s
    show (recordWinners gid rest now (add_giveaway_winner gid u (set_winner u now s))).entries
      = s.entries
    rw [ih, add_giveaway_winner_entries, set_winner_entries]

/-- Recording `picks` appends them, in order, to the per-giveaway winner log,
provided none of the picks was already logged and the picks are distinct. -/
theorem recordWinners_winners_append (gid : Nat) (now : Int) :
    ∀ (picks : List Nat) (s : DB), picks.Nodup → (∀ u ∈ picks, u ∉ s.winners gid) →
      (recordWinners gid picks now s).winners gid = s.winners gid ++ picks := by
  intro picks
  induction picks with
  | nil => intro s _ _; simp [recordWinners]
  | cons u rest ih =>
    intro s hnd hdis
    have hu : u ∉ s.winners gid := hdis u (by simp)
    have hstep : (add_giveaway_winner gid u (set_winner u now s)).winners
        = fun g => if g = gid then s.winners g ++ [u] else s.winners g := by
      unfold add_giveaway_winner
      rw [set_winner_winners]
      simp [hu]
    have hrest : ∀ v ∈ rest, v ∉ (add_giveaway_winner gid u (set_winner u now s)).winners gid := by
      intro v hv hmem
      rw [hstep] at hmem
      simp at hmem
      rcases hmem with h | h
      · exact hdis v (by simp [hv]) h
      · exact (List.nodup_cons.mp hnd).1 (h ▸ hv)
    show (recordWinners gid rest now (add_giveaway_winner gid u (set_winner u now s))).winners gid
      = s.winners gid ++ u :: rest
    rw [ih _ (List.nodup_cons.mp hnd).2 hrest, hstep]
    simp

/-- The winner log of giveaways other than `gid` is untouched by recording. -/
theorem recordWinners_winners_other (gid : Nat) (now : Int) :
    ∀ (picks : List Nat) (s : DB) (g : Nat), g ≠ gid →
      (recordWinners gid picks now s).winners g = s.winners g := by
  intro picks
  induction picks with
  | nil => intro s g _; rfl
  | cons u rest ih =>
    intro s g hg
    show (recordWinners gid rest now (add_giveaway_winner gid u (set_winner u now s))).winners g
      = s.winners g
    rw [ih _ _ hg]
    unfold add_giveaway_winner
    rw [set_winner_winners]
    split
    · rfl
    · simp [set_winner_winners, hg]

/-- Example database with giveaway 1 OPEN, used by witnesses. -/
def dbOpen : DB :=
  { status := fun g => if g = 1 then some "OPEN" else none
  , winners := fun _ => []
  , participants := fun _ => none
  , entries := [⟨1, 7, "ya", "1234567", 0⟩] }

/-- Example database with giveaway 1 claimed (DRAWING), used by witnesses. -/
def dbDrawing : DB :=
  { status := fun g => if g = 1 then some "DRAWING" else none
  , winners := fun g => if g = 1 then [3] else []
  , participants := fun u => if u = 3 then some (some 100) else if u = 7 then some none else none
  , entries := [⟨1, 7, "ya", "1234567", 0⟩, ⟨1, 3, "bo", "7654321", 0⟩] }

/-- C1: the claim operation succeeds iff the giveaway status is OPEN at the
moment of the update; a successful claim moves the status to DRAWING, a failed
claim leaves the record unchanged, and of two claim attempts on an OPEN
giveaway with no intervening revert exactly the first succeeds. -/
theorem giveaway_claim_spec (gid : Nat) (s : DB) :
    ((giveaway_claim gid s).1 = true ↔ s.status gid = some "OPEN") ∧
    ((giveaway_claim gid s).1 = true →
      (giveaway_claim gid s).2.status gid = some "DRAWING") ∧
    ((giveaway_claim gid s).1 = false → (giveaway_claim gid s).2 = s) ∧
    (s.status gid = some "OPEN" →
      (giveaway_claim gid s).1 = true ∧
      (giveaway_claim gid (giveaway_claim gid s).2).1 = false) := by
  by_cases h : s.status gid = some "OPEN" <;>
    simp [giveaway_claim, h]

/-- Witness for C1 on a concrete OPEN giveaway: of two successive claim
attempts, the first succeeds and the second fails. -/
theorem giveaway_claim_spec_witness :
    (giveaway_claim 1 dbOpen).1 = true ∧
    (giveaway_claim 1 (giveaway_claim 1 dbOpen).2).1 = false :=
  (giveaway_claim_spec 1 dbOpen).2.2.2 (by decide)

/-- C2: when the result announcement could not be delivered, the watcher
reverts the claimed giveaway to OPEN and records nothing: the per-giveaway
winner log and every participant's last-win timestamp are untouched. -/
theorem delivery_failure_reverts (gid : Nat) (picks : List (Nat × Option String))
    (now : Int) (s : DB) (h : s.status gid = some "DRAWING") :
    (finalize_after_draw false gid picks now s).status gid = some "OPEN" ∧
    (∀ g, (finalize_after_draw false gid picks now s).winners g = s.winners g) ∧
    (∀ u, (finalize_after_draw false gid picks now s).participants u = s.participants u) := by
  simp [finalize_after_draw, revert_claim, h]

/-- Witness for C2 on a concrete claimed giveaway with computed picks. -/
theorem delivery_failure_reverts_witness :
    (finalize_after_draw false 1 [(7, none)] 5 dbDrawing).status 1 = some "OPEN" ∧
    (finalize_after_draw false 1 [(7, none)] 5 dbDrawing).winners 1 = dbDrawing.winners 1 ∧
    (finalize_after_draw false 1 [(7, none)] 5 dbDrawing).participants 7 = dbDrawing.participants 7 :=
  ⟨(delivery_failure_reverts 1 [(7, none)] 5 dbDrawing (by decide)).1,
   (delivery_failure_reverts 1 [(7, none)] 5 dbDrawing (by decide)).2.1 1,
   (delivery_failure_reverts 1 [(7, none)] 5 dbDrawing (by decide)).2.2 7⟩

/-- C5: only successful resolutions are written to the token→sponsor cache.
`cache_put` drops `None`/empty results; a failed resolution leaves the cache
unchanged, so a missed lookup followed by a failed resolution leaves the next
lookup a miss that attempts resolution again — two consecutive lookups never
both return a stored negative. -/
theorem cache_no_negative_store (cache : ProductCache) (now ttl : Int)
    (resolve : String → Option String) (pid : String)
    (hfail : resolve pid = none) :
    (∀ (c : ProductCache) (p : String) (n : Int), cache_put c p none n = c) ∧
    (∀ (c : ProductCache) (p : String) (n : Int), cache_put c p (some "") n = c) ∧
    ((product_creator_id cache now ttl resolve pid).2.2 = cache) ∧
    (cache_get cache now ttl pid = none →
      product_creator_id cache now ttl resolve pid = (none, true, cache) ∧
      product_creator_id ((product_creator_id cache now ttl resolve pid).2.2)
          now ttl resolve pid = (none, true, cache)) := by
  refine ⟨fun c p n => rfl, fun c p n => rfl, ?_, ?_⟩
  · unfold product_creator_id
    rcases hget : cache_get cache now ttl pid with _ | c
    · simp [hget, hfail]
    · by_cases hc : c = "" <;> simp [hget, hfail, hc]
  · intro hmiss
    have h1 : product_creator_id cache now ttl resolve pid = (none, true, cache) := by
      unfold product_creator_id
      simp [hmiss, hfail]
    exact ⟨h1, by rw [h1]; exact h1⟩

/-- Witness for C5: empty cache, resolver that always fails, token `"12345"`. -/
theorem cache_no_negative_store_witness :
    product_creator_id (fun _ => none) 0 168 (fun _ => none) "12345"
      = (none, true, (fun _ => none : ProductCache)) ∧
    product_creator_id ((product_creator_id (fun _ => none) 0 168 (fun _ => none) "12345").2.2)
      0 168 (fun _ => none) "12345" = (none, true, (fun _ => none : ProductCache)) :=
  (cache_no_negative_store (fun _ => none) 0 168 (fun _ => none) "12345" rfl).2.2.2 rfl

/-- C7: under EACH with clamped threshold `k = max 1 threshold` and a non-empty
allow-list, eligibility holds iff every allowed sponsor's count reaches `k`;
in particular with allow-list `[A, B]` and counts `A ↦ k, B ↦ k-1` it is
false, and with `A ↦ k, B ↦ k` it is true. -/
theorem each_mode_spec (per : List (String × Int)) (rules : Rules) (allowed : List String)
    (hm : upperString rules.mode = "EACH") (ha : allowed ≠ []) :
    (eligible_by_creator_rule per rules allowed = true ↔
      ∀ cid ∈ allowed, max 1 rules.threshold ≤ lookupCount per cid) ∧
    eligible_by_creator_rule
      [("A", max 1 rules.threshold), ("B", max 1 rules.threshold - 1)] rules ["A", "B"] = false ∧
    eligible_by_creator_rule
      [("A", max 1 rules.threshold), ("B", max 1 rules.threshold)] rules ["A", "B"] = true := by
  have hne : allowed.isEmpty = false := by
    cases allowed
    · exact absurd rfl ha
    · rfl
  have hA : ∀ k j : Int, lookupCount [("A", k), ("B", j)] "A" = k := fun k j => rfl
  have hB : ∀ k j : Int, lookupCount [("A", k), ("B", j)] "B" = j := fun k j => rfl
  refine ⟨?_, ?_, ?_⟩
  · simp [eligible_by_creator_rule, hm, hne, List.all_eq_true]
  · simp [eligible_by_creator_rule, hm, hA, hB]
    omega
  · simp [eligible_by_creator_rule, hm, hA, hB]

/-- Witness for C7 at threshold 3 and a two-sponsor allow-list. -/
theorem each_mode_spec_witness :
    (eligible_by_creator_rule [("A", 3), ("B", 2)] ⟨"EACH", 3, some []⟩ ["A", "B"] = false) ∧
    (eligible_by_creator_rule [("A", 3), ("B", 3)] ⟨"EACH", 3, some []⟩ ["A", "B"] = true) :=
  ⟨(each_mode_spec [("A", 3), ("B", 2)] ⟨"EACH", 3, some []⟩ ["A", "B"] (by decide)
      (by decide)).2.1,
   (each_mode_spec [("A", 3), ("B", 3)] ⟨"EACH", 3, some []⟩ ["A", "B"] (by decide)
      (by decide)).2.2⟩

/-- C8: under MAP, an unparsable policy (`mapJson = none`, modelling the
swallowed `json.loads` exception) or an empty map is treated as no
constraint: the evaluator returns eligible for every count map. -/
theorem map_mode_fail_open (per : List (String × Int)) (rules : Rules)
    (allowed : List String) (hm : upperString rules.mode = "MAP")
    (hj : rules.mapJson = none ∨ rules.mapJson = some []) :
    eligible_by_creator_rule per rules allowed = true := by
  rcases hj with hj | hj <;>
    by_cases hane : allowed.isEmpty <;>
      simp [eligible_by_creator_rule, hm, hj, hane]

/-- Witness for C8: unparsable map and empty-map policies both eligible. -/
theorem map_mode_fail_open_witness :
    eligible_by_creator_rule [("A", 0)] ⟨"MAP", 1, none⟩ ["A"] = true ∧
    eligible_by_creator_rule [("A", 0)] ⟨"MAP", 1, some []⟩ ["A"] = true :=
  ⟨map_mode_fail_open [("A", 0)] ⟨"MAP", 1, none⟩ ["A"] (by decide) (Or.inl rfl),
   map_mode_fail_open [("A", 0)] ⟨"MAP", 1, some []⟩ ["A"] (by decide) (Or.inr rfl)⟩

/-- C10: at giveaway creation, the stored target winner count is the number of
unique shop ids parsed from the Shops field whenever there is at least one
(the typed count is then ignored); only with no shop ids is the typed count,
clamped to at least 1, used. -/
theorem wish_winners_spec (shopsText : String) (t t2 : Int) :
    ((wish_unique_shops shopsText).isEmpty = false →
      wish_winners_n shopsText t = ((wish_unique_shops shopsText).length : Int) ∧
      wish_winners_n shopsText t = wish_winners_n shopsText t2) ∧
    ((wish_unique_shops shopsText).isEmpty = true →
      wish_winners_n shopsText t = max 1 t) := by
  unfold wish_winners_n
  by_cases h : (wish_unique_shops shopsText).isEmpty <;> simp [h]

/-- Witness for C10: two shop ids, typed counts 7 and 9 both ignored. -/
theorem wish_winners_spec_witness :
    wish_winners_n "12345 67890 12345" 7
      = ((wish_unique_shops "12345 67890 12345").length : Int) ∧
    wish_winners_n "12345 67890 12345" 7 = wish_winners_n "12345 67890 12345" 9 :=
  (wish_winners_spec "12345 67890 12345" 7 9).1 (by decide)

theorem count_entries_map_preserving (g : Nat) (f : EntryRow → EntryRow)
    (hf : ∀ r, (f r).gid = r.gid) (tbl : List EntryRow) :
    giveaway_count_entries g (tbl.map f) = giveaway_count_entries g tbl := by
  induction tbl with
  | nil => rfl
  | cons r rest ih =>
    unfold giveaway_count_entries at ih ⊢
    simp only [List.map_cons, List.filter_cons, hf r]
    by_cases h : r.gid = g <;> simp [h, ih]

/-- C6: a resubmission for a `(giveaway, participant)` pair that already has an
entry updates the stored name, token list and timestamp in place: no row is
inserted or rejected, and the entry count of every giveaway is unchanged. -/
theorem enter_submit_upsert (gid did : Nat) (uname rawPids : String) (now : Int)
    (tbl : List EntryRow)
    (hex : tbl.any (fun r => r.gid = gid ∧ r.did = did) = true)
    (hu : uname ≠ "") (hp : (parse_product_ids rawPids 10).isEmpty = false) :
    (enter_submit gid did uname rawPids now tbl).1 = true ∧
    (enter_submit gid did uname rawPids now tbl).2 = tbl.map (fun r =>
      if r.gid = gid ∧ r.did = did then
        { r with uname := uname,
                 pids := String.intercalate "," (parse_product_ids rawPids 10),
                 createdAt := now }
      else r) ∧
    (enter_submit gid did uname rawPids now tbl).2.length = tbl.length ∧
    (∀ g, giveaway_count_entries g (enter_submit gid did uname rawPids now tbl).2
        = giveaway_count_entries g tbl) := by
  have hsub : enter_submit gid did uname rawPids now tbl
      = (true, tbl.map (fun r =>
          if r.gid = gid ∧ r.did = did then
            { r with uname := uname,
                     pids := String.intercalate "," (parse_product_ids rawPids 10),
                     createdAt := now }
          else r)) := by
    unfold enter_submit
    rw [if_neg (by simp [hu, hp]), if_pos hex]
  refine ⟨by rw [hsub], by rw [hsub], by rw [hsub]; exact List.length_map _ _, ?_⟩
  intro g
  rw [hsub]
  exact count_entries_map_preserving g _
    (fun r => by by_cases h : r.gid = gid ∧ r.did = did <;> simp [h]) tbl

/-- Entries table with one existing entry, used by the C6 witness. -/
def tblC6 : List EntryRow := [⟨1, 7, "old", "1111111", 0⟩]

/-- Witness for C6: resubmitting for `(1, 7)` keeps the table length and the
giveaway's entry count. -/
theorem enter_submit_upsert_witness :
    (enter_submit 1 7 "ya" "2222222" 5 tblC6).1 = true ∧
    (enter_submit 1 7 "ya" "2222222" 5 tblC6).2.length = tblC6.length ∧
    giveaway_count_entries 1 (enter_submit 1 7 "ya" "2222222" 5 tblC6).2
      = giveaway_count_entries 1 tblC6 :=
  ⟨(enter_submit_upsert 1 7 "ya" "2222222" 5 tblC6 (by decide) (by decide) (by decide)).1,
   (enter_submit_upsert 1 7 "ya" "2222222" 5 tblC6 (by decide) (by decide) (by decide)).2.2.1,
   (enter_submit_upsert 1 7 "ya" "2222222" 5 tblC6 (by decide) (by decide) (by decide)).2.2.2 1⟩

/-- `reroll` either bails out leaving the state unchanged, or draws a prefix of
the shuffled filtered pool and records it. -/
theorem reroll_cases (gid : Nat) (count : Int) (owo : Bool)
    (sh : List Nat → List Nat) (cv : Bool) (now : Int) (s : DB) :
    reroll gid count owo sh cv now s = ([], s) ∨
    reroll gid count owo sh cv now s
      = ((sh (reroll_pool2 gid owo s)).take (max 1 count).toNat,
         recordWinners gid ((sh (reroll_pool2 gid owo s)).take (max 1 count).toNat) now s) := by
  unfold reroll reroll_go
  dsimp only
  split
  · exact Or.inl rfl
  · split
    · exact Or.inl rfl
    · split
      · exact Or.inl rfl
      · split
        · exact Or.inl rfl
        · exact Or.inr rfl

theorem reroll_pool_nodup (gid : Nat) (s : DB) : (reroll_pool gid s).Nodup :=
  List.Nodup.filter _ (pyDedup_nodup _)

theorem reroll_pool_not_won (gid : Nat) (s : DB) :
    ∀ u ∈ reroll_pool gid s, u ∉ s.winners gid := by
  intro u hu
  have h := (List.mem_filter.mp hu).2
  simpa using h

theorem reroll_pool2_sub (gid : Nat) (owo : Bool) (s : DB) :
    ∀ u ∈ reroll_pool2 gid owo s, u ∈ reroll_pool gid s := by
  unfold reroll_pool2
  split
  · intro u hu; exact (List.mem_filter.mp hu).1
  · intro u hu; exact hu

theorem reroll_pool2_nodup (gid : Nat) (owo : Bool) (s : DB) :
    (reroll_pool2 gid owo s).Nodup := by
  unfold reroll_pool2
  split
  · exact List.Nodup.filter _ (reroll_pool_nodup gid s)
  · exact reroll_pool_nodup gid s

theorem sh_take_mem (sh : List Nat → List Nat) (hsh : ∀ l, (sh l).Perm l)
    (l : List Nat) (n : Nat) : ∀ u ∈ (sh l).take n, u ∈ l :=
  fun u hu => ((hsh l).mem_iff).mp (List.mem_of_mem_take hu)

theorem reroll_pool_sub_entrants (gid : Nat) (s : DB) :
    ∀ u ∈ reroll_pool gid s, u ∈ giveaway_entry_user_ids gid s :=
  fun u hu => (List.mem_filter.mp hu).1

/-- Every reroll pick comes from the filtered pool, hence is an entrant of the
giveaway that is not in its winner log. -/
theorem reroll_picks_not_won (gid : Nat) (count : Int) (owo : Bool)
    (sh : List Nat → List Nat) (cv : Bool) (now : Int) (s : DB)
    (hsh : ∀ l, (sh l).Perm l) :
    ∀ u ∈ (reroll gid count owo sh cv now s).1,
      u ∈ giveaway_entry_user_ids gid s ∧ u ∉ s.winners gid := by
  rcases reroll_cases gid count owo sh cv now s with h | h <;> rw [h]
  · simp
  · intro u hu
    have hpool : u ∈ reroll_pool gid s :=
      reroll_pool2_sub gid owo s u (sh_take_mem sh hsh _ _ u hu)
    exact ⟨reroll_pool_sub_entrants gid s u hpool, reroll_pool_not_won gid s u hpool⟩

/-- Reroll appends exactly its picks to the per-giveaway winner log. -/
theorem reroll_winners_append (gid : Nat) (count : Int) (owo : Bool)
    (sh : List Nat → List Nat) (cv : Bool) (now : Int) (s : DB)
    (hsh : ∀ l, (sh l).Perm l) :
    (reroll gid count owo sh cv now s).2.winners gid
      = s.winners gid ++ (reroll gid count owo sh cv now s).1 := by
  rcases reroll_cases gid count owo sh cv now s with h | h <;> rw [h]
  · simp
  · have hnd : ((sh (reroll_pool2 gid owo s)).take (max 1 count).toNat).Nodup :=
      List.Nodup.sublist (List.take_sublist _ _)
        (((hsh _).nodup_iff).mpr (reroll_pool2_nodup gid owo s))
    have hdis : ∀ u ∈ (sh (reroll_pool2 gid owo s)).take (max 1 count).toNat,
        u ∉ s.winners gid := fun u hu =>
      reroll_pool_not_won gid s u
        (reroll_pool2_sub gid owo s u (sh_take_mem sh hsh _ _ u hu))
    exact recordWinners_winners_append gid now _ s hnd hdis

/-- C3: reroll draws only entrants of the giveaway that are absent from its
winner log and appends its picks to that log, so no invocation — including a
repeated one — selects a participant already recorded as a winner of that
giveaway. -/
theorem reroll_no_repeat_winners (gid : Nat) (c1 c2 : Int) (owo : Bool)
    (sh : List Nat → List Nat) (cv1 cv2 : Bool) (t1 t2 : Int) (s : DB)
    (hsh : ∀ l, (sh l).Perm l) :
    (∀ u ∈ (reroll gid c1 owo sh cv1 t1 s).1,
      u ∈ giveaway_entry_user_ids gid s ∧ u ∉ s.winners gid) ∧
    ((reroll gid c1 owo sh cv1 t1 s).2.winners gid
      = s.winners gid ++ (reroll gid c1 owo sh cv1 t1 s).1) ∧
    (∀ u ∈ (reroll gid c2 owo sh cv2 t2 (reroll gid c1 owo sh cv1 t1 s).2).1,
      u ∉ s.winners gid ∧ u ∉ (reroll gid c1 owo sh cv1 t1 s).1) := by
  refine ⟨reroll_picks_not_won gid c1 owo sh cv1 t1 s hsh,
          reroll_winners_append gid c1 owo sh cv1 t1 s hsh, ?_⟩
  intro u hu
  have h2 := (reroll_picks_not_won gid c2 owo sh cv2 t2
    (reroll gid c1 owo sh cv1 t1 s).2 hsh u hu).2
  rw [reroll_winners_append gid c1 owo sh cv1 t1 s hsh] at h2
  simp only [List.mem_append] at h2
  exact ⟨fun h => h2 (Or.inl h), fun h => h2 (Or.inr h)⟩

/-- Finalized giveaway state with one logged winner, used by the C3 witness. -/
def dbDone : DB :=
  { status := fun g => if g = 1 then some "DONE" else none
  , winners := fun g => if g = 1 then [3] else []
  , participants := fun u => if u = 3 then some (some 100) else none
  , entries := [⟨1, 7, "ya", "1234567", 0⟩, ⟨1, 3, "bo", "7654321", 0⟩,
                ⟨1, 9, "zu", "5555555", 0⟩] }

/-- Witness for C3: two successive rerolls on a finalized giveaway; picks are
appended to the log and the second draw avoids the original log and the first
draw's picks. -/
theorem reroll_no_repeat_winners_witness :
    ((reroll 1 1 false id true 50 dbDone).2.winners 1
      = dbDone.winners 1 ++ (reroll 1 1 false id true 50 dbDone).1) ∧
    (7 ∈ (reroll 1 1 false id true 60 (reroll 1 1 false id true 50 dbDone).2).1 →
      7 ∉ dbDone.winners 1 ∧ 7 ∉ (reroll 1 1 false id true 50 dbDone).1) :=
  ⟨(reroll_no_repeat_winners 1 1 1 false id true true 50 60 dbDone
      (fun l => List.Perm.refl l)).2.1,
   (reroll_no_repeat_winners 1 1 1 false id true true 50 60 dbDone
      (fun l => List.Perm.refl l)).2.2 7⟩

theorem winFilterOk_locked (cfg : DrawCfg) (s : DB) (u : Nat)
    (howo : cfg.oneWinOnly = true) (hu : lockedOut s u = true) :
    winFilterOk cfg s u = false := by
  unfold winFilterOk
  unfold lockedOut at hu
  rcases h : s.participants u with _ | lw
  · rw [h] at hu; exact absurd hu (by simp)
  · rcases lw with _ | t
    · rw [h] at hu; exact absurd hu (by simp)
    · simp [howo]

theorem scanCandidates_mem (gid : Nat) (s : DB) (resolve : String → Option String)
    (shop : String) : ∀ (l : List Nat) (v : Nat) (pid : String),
    scanCandidates gid s resolve shop l = some (v, pid) → v ∈ l := by
  intro l
  induction l with
  | nil => intro v pid h; simp [scanCandidates] at h
  | cons u rest ih =>
    intro v pid h
    unfold scanCandidates at h
    dsimp only at h
    by_cases hp : (giveaway_entry_raw_products gid u s).isEmpty
    · rw [if_pos hp] at h
      exact List.mem_cons_of_mem _ (ih v pid h)
    · rw [if_neg hp] at h
      rcases hf : find_pid_for_shop resolve (giveaway_entry_raw_products gid u s) shop
          with _ | pid2
      · rw [hf] at h
        exact List.mem_cons_of_mem _ (ih v pid h)
      · rw [hf] at h
        simp only [Option.some.injEq, Prod.mk.injEq] at h
        simp [h.1]

theorem shopCandidates_filterOk (cfg : DrawCfg) (s : DB) (pool picked : List Nat)
    (u : Nat) (hmem : u ∈ shopCandidates cfg s pool picked) :
    winFilterOk cfg s u = true := by
  have h := (List.mem_filter.mp hmem).2
  simp only [Bool.and_eq_true, decide_eq_true_eq] at h
  exact h.2

theorem drawShopsLoop_picks (cfg : DrawCfg) (s : DB) (gid : Nat)
    (resolve : String → Option String) (sh : List Nat → List Nat)
    (pool : List Nat) (winnersN : Nat)
    (hsh : ∀ l x, x ∈ sh l → x ∈ l) :
    ∀ (shops : List String) (picks : List (Nat × Option String)) (picked : List Nat)
      (v : Nat) (p : Option String),
      (v, p) ∈ drawShopsLoop cfg s gid resolve sh pool winnersN shops picks picked →
      (v, p) ∈ picks ∨ winFilterOk cfg s v = true := by
  intro shops
  induction shops with
  | nil => intro picks picked v p h; exact Or.inl h
  | cons shop rest ih =>
    intro picks picked v p h
    unfold drawShopsLoop at h
    dsimp only at h
    rcases hscan : scanCandidates gid s resolve shop (sh (shopCandidates cfg s pool picked))
        with _ | uv
    · rw [hscan] at h
      exact ih _ _ v p h
    · obtain ⟨w, pid⟩ := uv
      rw [hscan] at h
      dsimp only at h
      have hwfilter : winFilterOk cfg s w = true :=
        shopCandidates_filterOk cfg s pool picked w
          (hsh _ w (scanCandidates_mem gid s resolve shop _ w pid hscan))
      by_cases hlen : winnersN ≤ (picks ++ [(w, some pid)]).length
      · rw [if_pos hlen] at h
        rcases List.mem_append.mp h with h1 | h1
        · exact Or.inl h1
        · have hvp : v = w ∧ p = some pid := by simpa using h1
          exact Or.inr (hvp.1 ▸ hwfilter)
      · rw [if_neg hlen] at h
        rcases ih (picks ++ [(w, some pid)]) (picked ++ [w]) v p h with h1 | h1
        · rcases List.mem_append.mp h1 with h2 | h2
          · exact Or.inl h2
          · have hvp : v = w ∧ p = some pid := by simpa using h2
            exact Or.inr (hvp.1 ▸ hwfilter)
        · exact Or.inr h1

theorem fallbackLoop_picks (cfg : DrawCfg) (s : DB) (gid : Nat) (winnersN : Nat) :
    ∀ (remaining : List Nat) (picks : List (Nat × Option String))
      (v : Nat) (p : Option String),
      (v, p) ∈ fallbackLoop cfg s gid winnersN remaining picks →
      (v, p) ∈ picks ∨ winFilterOk cfg s v = true := by
  intro remaining
  induction remaining with
  | nil => intro picks v p h; exact Or.inl h
  | cons u rest ih =>
    intro picks v p h
    unfold fallbackLoop at h
    dsimp only at h
    by_cases hf : winFilterOk cfg s u = true
    · rw [if_pos hf] at h
      by_cases hlen :
          winnersN ≤ (picks ++ [(u, (giveaway_entry_raw_products gid u s).head?)]).length
      · rw [if_pos hlen] at h
        rcases List.mem_append.mp h with h1 | h1
        · exact Or.inl h1
        · have hvp : v = u ∧ p = (giveaway_entry_raw_products gid u s).head? := by
            simpa using h1
          exact Or.inr (hvp.1 ▸ hf)
      · rw [if_neg hlen] at h
        rcases ih (picks ++ [(u, (giveaway_entry_raw_products gid u s).head?)]) v p h
            with h1 | h1
        · rcases List.mem_append.mp h1 with h2 | h2
          · exact Or.inl h2
          · have hvp : v = u ∧ p = (giveaway_entry_raw_products gid u s).head? := by
              simpa using h2
            exact Or.inr (hvp.1 ▸ hf)
        · exact Or.inr h1
    · rw [if_neg hf] at h
      exact ih picks v p h

/-- Every participant the watcher picks — per-shop pass or fallback fill —
passes the win-history filter. -/
theorem watcher_draw_picks_filterOk (cfg : DrawCfg) (s : DB) (gid : Nat)
    (winners : Int) (shops : List String) (resolve : String → Option String)
    (sh : List Nat → List Nat) (hsh : ∀ l x, x ∈ sh l → x ∈ l) :
    ∀ v p, (v, p) ∈ watcher_draw cfg s gid winners shops resolve sh →
      winFilterOk cfg s v = true := by
  intro v p h
  unfold watcher_draw at h
  dsimp only at h
  have hpicks0 : ∀ (w : Nat) (q : Option String),
      (w, q) ∈ (if shops.isEmpty then []
        else drawShopsLoop cfg s gid resolve sh (sh (giveaway_entry_user_ids gid s))
          ((max 1 winners).toNat) shops [] []) →
      winFilterOk cfg s w = true := by
    intro w q hw
    by_cases hse : shops.isEmpty
    · rw [if_pos hse] at hw; simp at hw
    · rw [if_neg hse] at hw
      rcases drawShopsLoop_picks cfg s gid resolve sh _ _ hsh shops [] [] w q hw
          with h1 | h1
      · simp at h1
      · exact h1
  by_cases hcond : (if shops.isEmpty then []
      else drawShopsLoop cfg s gid resolve sh (sh (giveaway_entry_user_ids gid s))
        ((max 1 winners).toNat) shops [] []).length < (max 1 winners).toNat ∧
      ¬ (sh (giveaway_entry_user_ids gid s)).isEmpty = true
  · rw [if_pos hcond] at h
    by_cases hstrict : ¬ shops.isEmpty = true ∧ cfg.strictShopMatch = true
    · rw [if_pos hstrict] at h
      exact hpicks0 v p h
    · rw [if_neg hstrict] at h
      rcases fallbackLoop_picks cfg s gid _ _ _ v p h with h1 | h1
      · exact hpicks0 v p h1
      · exact h1
  · rw [if_neg hcond] at h
    exact hpicks0 v p h

/-- C4: in lifetime-lock mode every participant with a non-null last-win
timestamp is excluded from the per-shop candidate pools, never picked by the
watcher draw (per-shop pass or fallback fill), and excluded from every reroll
pool. -/
theorem lifetime_lock_excluded (cfg : DrawCfg) (s : DB) (u : Nat)
    (sh : List Nat → List Nat)
    (howo : cfg.oneWinOnly = true)
    (hsh : ∀ l x, x ∈ sh l → x ∈ l)
    (hu : lockedOut s u = true) :
    (∀ pool picked, u ∉ shopCandidates cfg s pool picked) ∧
    (∀ gid winners shops resolve,
      u ∉ (watcher_draw cfg s gid winners shops resolve sh).map Prod.fst) ∧
    (∀ gid, u ∉ reroll_pool2 gid true s) ∧
    (∀ gid count cv now, u ∉ (reroll gid count true sh cv now s).1) := by
  have hfilter := winFilterOk_locked cfg s u howo hu
  have hpool2 : ∀ gid, u ∉ reroll_pool2 gid true s := by
    intro gid hmem
    unfold reroll_pool2 at hmem
    rw [if_pos rfl] at hmem
    have h := (List.mem_filter.mp hmem).2
    simp [hu] at h
  refine ⟨?_, ?_, hpool2, ?_⟩
  · intro pool picked hmem
    have h := shopCandidates_filterOk cfg s pool picked u hmem
    rw [hfilter] at h
    exact Bool.false_ne_true h
  · intro gid winners shops resolve hmem
    rcases List.mem_map.mp hmem with ⟨⟨v, p⟩, hvp, hv⟩
    have hv2 : v = u := hv
    have h := watcher_draw_picks_filterOk cfg s gid winners shops resolve sh hsh v p hvp
    rw [hv2, hfilter] at h
    exact Bool.false_ne_true h
  · intro gid count cv now hmem
    rcases reroll_cases gid count true sh cv now s with h | h <;> rw [h] at hmem
    · simp at hmem
    · exact hpool2 gid (hsh _ u (List.mem_of_mem_take hmem))

/-- Watcher configuration with lifetime lock enabled, used by the C4 witness. -/
def cfgOne : DrawCfg := ⟨true, 7, true, 1000⟩

/-- Witness for C4: participant 3 of `dbDone` has a non-null last win and is
excluded from the watcher draw and from the reroll pool. -/
theorem lifetime_lock_excluded_witness :
    lockedOut dbDone 3 = true ∧
    3 ∉ (watcher_draw cfgOne dbDone 1 2 ["11111"] (fun _ => none) id).map Prod.fst ∧
    3 ∉ reroll_pool2 1 true dbDone :=
  ⟨by decide,
   (lifetime_lock_excluded cfgOne dbDone 3 id rfl (fun _ _ h => h)
      (by decide)).2.1 1 2 ["11111"] (fun _ => none),
   (lifetime_lock_excluded cfgOne dbDone 3 id rfl (fun _ _ h => h)
      (by decide)).2.2.1 1⟩

/-- C9 counterexample: on `dbOpen` the giveaway is OPEN — not finalized
(`DONE`) — yet `reroll_cmd` draws participant 7 and records them in the
winner log, because the source never consults the status. -/
theorem reroll_not_finalized_counterexample :
    dbOpen.status 1 = some "OPEN" ∧
    ¬ dbOpen.status 1 = some "DONE" ∧
    (reroll 1 1 true id true 0 dbOpen).1 = [7] ∧
    (reroll 1 1 true id true 0 dbOpen).2.winners 1 = [7] := by
  decide

theorem set_winner_participants_indep (u : Nat) (now : Int) (s t : DB)
    (hp : s.participants = t.participants) :
    (set_winner u now s).participants = (set_winner u now t).participants := by
  show (fun v => if v = u then (s.participants v).map (fun _ => some now)
        else s.participants v)
      = (fun v => if v = u then (t.participants v).map (fun _ => some now)
        else t.participants v)
  rw [hp]

theorem record_step_indep (gid u : Nat) (now : Int) (s t : DB)
    (hw : s.winners = t.winners) (hp : s.participants = t.participants) :
    (add_giveaway_winner gid u (set_winner u now s)).winners
      = (add_giveaway_winner gid u (set_winner u now t)).winners ∧
    (add_giveaway_winner gid u (set_winner u now s)).participants
      = (add_giveaway_winner gid u (set_winner u now t)).participants := by
  have hw2 : (set_winner u now s).winners = (set_winner u now t).winners := by
    rw [set_winner_winners, set_winner_winners, hw]
  have hp2 : (set_winner u now s).participants = (set_winner u now t).participants :=
    set_winner_participants_indep u now s t hp
  constructor
  · unfold add_giveaway_winner
    rw [hw2]
    split
    · exact hw2
    · rfl
  · unfold add_giveaway_winner
    rw [hw2]
    split
    · exact hp2
    · exact hp2

/-- The winner log produced by the recording loop depends only on the winner
log and participants of the starting state, not on the status column. -/
theorem recordWinners_indep (gid : Nat) (now : Int) :
    ∀ (picks : List Nat) (s t : DB), s.winners = t.winners →
      s.participants = t.participants →
      (recordWinners gid picks now s).winners = (recordWinners gid picks now t).winners := by
  intro picks
  induction picks with
  | nil => intro s t hw _; exact hw
  | cons u rest ih =>
    intro s t hw hp
    show (recordWinners gid rest now (add_giveaway_winner gid u (set_winner u now s))).winners
       = (recordWinners gid rest now (add_giveaway_winner gid u (set_winner u now t))).winners
    exact ih _ _ (record_step_indep gid u now s t hw hp).1
      (record_step_indep gid u now s t hw hp).2

/-- C9 amended: `reroll_cmd` performs no status check at all — on two states
that agree on entries, winner logs and participants and both contain the
giveaway (with arbitrary statuses `a` and `b`), reroll returns the same picks
and produces the same winner logs. -/
theorem reroll_ignores_status (gid : Nat) (count : Int) (owo : Bool)
    (sh : List Nat → List Nat) (cv : Bool) (now : Int) (s t : DB) (a b : String)
    (hs : s.status gid = some a) (ht : t.status gid = some b)
    (hw : s.winners = t.winners) (hp : s.participants = t.participants)
    (he : s.entries = t.entries) :
    (reroll gid count owo sh cv now s).1 = (reroll gid count owo sh cv now t).1 ∧
    (∀ g, (reroll gid count owo sh cv now s).2.winners g
        = (reroll gid count owo sh cv now t).2.winners g) := by
  have hpool : reroll_pool gid s = reroll_pool gid t := by
    unfold reroll_pool giveaway_entry_user_ids
    rw [he, hw]
  have hpool2 : reroll_pool2 gid owo s = reroll_pool2 gid owo t := by
    unfold reroll_pool2
    rw [hpool]
    cases owo
    · simp
    · simp only [if_pos]
      exact List.filter_congr (fun x _ => by unfold lockedOut; rw [hp])
  have h1 : (s.status gid).isNone = false := by rw [hs]; rfl
  have h2 : (t.status gid).isNone = false := by rw [ht]; rfl
  unfold reroll
  rw [h1, h2]
  simp only [Bool.false_eq_true, if_false]
  by_cases hcv : cv = true
  · rw [if_neg (not_not_intro hcv), if_neg (not_not_intro hcv)]
    unfold reroll_go
    dsimp only
    rw [hpool, hpool2]
    by_cases hpe : (reroll_pool gid t).isEmpty = true
    · rw [if_pos hpe, if_pos hpe]
      exact ⟨rfl, fun g => congrFun hw g⟩
    · rw [if_neg hpe, if_neg hpe]
      by_cases hp2e : owo = true ∧ (reroll_pool2 gid owo t).isEmpty = true
      · rw [if_pos hp2e, if_pos hp2e]
        exact ⟨rfl, fun g => congrFun hw g⟩
      · rw [if_neg hp2e, if_neg hp2e]
        exact ⟨rfl, fun g =>
          congrFun (recordWinners_indep gid now _ s t hw hp) g⟩
  · rw [if_pos hcv, if_pos hcv]
    exact ⟨rfl, fun g => congrFun hw g⟩

/-- `dbOpen` with the giveaway marked DONE instead of OPEN, for the C9 witness. -/
def dbOpenDone : DB :=
  { dbOpen with status := fun g => if g = 1 then some "DONE" else none }

/-- Witness for C9's amended claim: reroll on the OPEN state and on the
otherwise-identical DONE state picks the same winners and produces the same
log. -/
theorem reroll_ignores_status_witness :
    (reroll 1 1 true id true 0 dbOpen).1 = (reroll 1 1 true id true 0 dbOpenDone).1 ∧
    (reroll 1 1 true id true 0 dbOpen).2.winners 1
      = (reroll 1 1 true id true 0 dbOpenDone).2.winners 1 :=
  ⟨(reroll_ignores_status 1 1 true id true 0 dbOpen dbOpenDone "OPEN" "DONE"
      (by decide) (by decide) rfl rfl rfl).1,
   (reroll_ignores_status 1 1 true id true 0 dbOpen dbOpenDone "OPEN" "DONE"
      (by decide) (by decide) rfl rfl rfl).2 1⟩
